import Mathlib

/-!
Shallow embedding of the terraform-provider-prefect repository:
the deployment resource (internal/provider/resources/deployment.go) and the
accounts HTTP client.  External effects (the Terraform state store, the HTTP
transport, the JSON codec) are modelled as explicit environment records whose
fields hold the outcome of each effectful call; the control flow and data flow
of the Go functions are translated statement by statement.
-/

deriving instance DecidableEq for Except

namespace Prefect

/-! ## UUIDs (github.com/google/uuid)

`uuid.Parse` accepts the canonical hyphenated form, the `urn:uuid:` prefixed
form, the braced form and the 32-hex-digit form; `UUID.String` renders the
canonical lowercase hyphenated form. -/

/-- Hex value of a character, as in google/uuid's `xvalues` table. -/
def hexVal (c : Char) : Option Nat :=
  if '0' ≤ c ∧ c ≤ '9' then some (c.toNat - 48)
  else if 'a' ≤ c ∧ c ≤ 'f' then some (c.toNat - 87)
  else if 'A' ≤ c ∧ c ≤ 'F' then some (c.toNat - 55)
  else none

/-- `xtob` from google/uuid: two hex characters to a byte. -/
def xtob (c1 c2 : Char) : Option Nat :=
  match hexVal c1, hexVal c2 with
  | some a, some b => some (16 * a + b)
  | _, _ => none

/-- A UUID is 16 bytes. -/
structure UUID where
  bytes : List Nat
deriving DecidableEq, Repr

/-- The byte encoded at positions `i`, `i+1` of a character list. -/
def byteAt (cs : List Char) (i : Nat) : Option Nat :=
  match cs.get? i, cs.get? (i + 1) with
  | some a, some b => xtob a b
  | _, _ => none

/-- The 16 starting positions of the byte pairs in the hyphenated form,
as hard-coded in google/uuid's `Parse`. -/
def hyphenatedOffsets : List Nat :=
  [0, 2, 4, 6, 9, 11, 14, 16, 19, 21, 24, 26, 28, 30, 32, 34]

/-- Parse the hyphenated body `xxxxxxxx-xxxx-xxxx-xxxx-xxxxxxxxxxxx`. -/
def parseHyphenated (cs : List Char) : Option UUID :=
  if cs.get? 8 = some '-' ∧ cs.get? 13 = some '-' ∧
     cs.get? 18 = some '-' ∧ cs.get? 23 = some '-' then
    (hyphenatedOffsets.mapM (byteAt cs)).map UUID.mk
  else none

/-- Parse the 32-hex-digit form. -/
def parse32 (cs : List Char) : Option UUID :=
  ((List.range 16).mapM (fun i => byteAt cs (2 * i))).map UUID.mk

/-- ASCII-case-insensitive character comparison (the only characters compared
against are those of `urn:uuid:`, for which Unicode simple folding and ASCII
folding agree). -/
def charFoldEq (a b : Char) : Bool :=
  a = b ∨ (a.toNat + 32 = b.toNat ∧ 'A' ≤ a ∧ a ≤ 'Z')
    ∨ (b.toNat + 32 = a.toNat ∧ 'A' ≤ b ∧ b ≤ 'Z')

/-- `strings.EqualFold` on character lists. -/
def foldEqList : List Char → List Char → Bool
  | [], [] => true
  | a :: as, b :: bs => charFoldEq a b && foldEqList as bs
  | _, _ => false

/-- `uuid.Parse` from google/uuid, by length: 36 = hyphenated,
45 = `urn:uuid:` prefix, 38 = braced (only the first byte is stripped),
32 = bare hex; anything else is an invalid length. -/
def uuidParse (s : String) : Option UUID :=
  let cs := s.data
  if cs.length = 36 then parseHyphenated cs
  else if cs.length = 45 then
    if foldEqList (cs.take 9) "urn:uuid:".data then parseHyphenated (cs.drop 9)
    else none
  else if cs.length = 38 then parseHyphenated (cs.drop 1)
  else if cs.length = 32 then parse32 cs
  else none

/-- Lowercase hex digit of a value below 16. -/
def hexDigit (n : Nat) : Char :=
  if n < 10 then Char.ofNat (48 + n) else Char.ofNat (87 + n)

/-- Two lowercase hex characters of a byte. -/
def byteHex (b : Nat) : List Char :=
  [hexDigit (b / 16 % 16), hexDigit (b % 16)]

/-- `UUID.String` from google/uuid: canonical lowercase hyphenated form. -/
def uuidString (u : UUID) : String :=
  let bs := u.bytes
  let seg (lo hi : Nat) : List Char := ((bs.drop lo).take (hi - lo)).flatMap byteHex
  String.mk (seg 0 4 ++ ['-'] ++ seg 4 6 ++ ['-'] ++ seg 6 8 ++ ['-'] ++
    seg 8 10 ++ ['-'] ++ seg 10 16)

/-- The zero UUID, returned by `UUIDValue.ValueUUID` on a null value. -/
def uuidNil : UUID := ⟨List.replicate 16 0⟩

/-! ## DeploymentResource.ImportState

`ImportState` splits the import identifier on `,`; more than two parts or an
empty part among exactly two is an error; otherwise the `id` attribute is set
to the first part and, when a second non-empty part is present, it is parsed
as a UUID and `workspace_id` is set to its canonical string form. -/

/-- Helper for `stringsSplit`: the accumulator holds the current field in
reverse. -/
def splitCharAux (sep : Char) : List Char → List Char → List String
  | [], acc => [String.mk acc.reverse]
  | c :: cs, acc =>
    if c = sep then String.mk acc.reverse :: splitCharAux sep cs []
    else splitCharAux sep cs (c :: acc)

/-- Go's `strings.Split` for a one-character separator: the empty string
yields one empty field, and every separator starts a new field. -/
def stringsSplit (s : String) (sep : Char) : List String :=
  splitCharAux sep s.data []

/-- The observable outcome of `ImportState`: the error summaries added to the
diagnostics and the values written to the `id` and `workspace_id` state
attributes. -/
structure ImportResult where
  errors : List String
  idAttr : Option String
  workspaceIdAttr : Option String
deriving DecidableEq, Repr

/-- The body of `DeploymentResource.ImportState` after the split, translated
statement by statement. -/
def importCore (inputParts : List String) : ImportResult :=
  if inputParts.length > 2 then
    ⟨["Unexpected Import Identifier"], none, none⟩
  else if inputParts.length = 2 ∧
      (inputParts.getD 0 "" = "" ∨ inputParts.getD 1 "" = "") then
    ⟨["Unexpected Import Identifier"], none, none⟩
  else
    let identifier := inputParts.getD 0 ""
    if inputParts.length = 2 ∧ inputParts.getD 1 "" ≠ "" then
      match uuidParse (inputParts.getD 1 "") with
      | none => ⟨["Error parsing Deployment ID"], some identifier, none⟩
      | some workspaceID => ⟨[], some identifier, some (uuidString workspaceID)⟩
    else ⟨[], some identifier, none⟩

/-- `DeploymentResource.ImportState`: split the import identifier on `,`
and process the parts. -/
def importState (reqID : String) : ImportResult :=
  importCore (stringsSplit reqID ',')

example : importState "" = ⟨[], some "", none⟩ := by decide
example : importState "a,b,c" = ⟨["Unexpected Import Identifier"], none, none⟩ := by decide
example : importState "a," = ⟨["Unexpected Import Identifier"], none, none⟩ := by decide
example : importState ",b" = ⟨["Unexpected Import Identifier"], none, none⟩ := by decide
example : importState "foo" = ⟨[], some "foo", none⟩ := by decide
example : importState "foo,bar" = ⟨["Error parsing Deployment ID"], some "foo", none⟩ := by decide
example :
    importState "foo,AAAAAAAA-aaaa-aaaa-aaaa-aaaaaaaaaaaa" =
      ⟨[], some "foo", some "aaaaaaaa-aaaa-aaaa-aaaa-aaaaaaaaaaaa"⟩ := by decide

/-! ## AccountsClient (the accounts HTTP API client)

Each operation builds one request with the caller's context, issues it once
through the HTTP client, and checks the status code; Go's `err != nil`
branches become pattern matches on environment fields that record the
outcome of each effectful call. -/

/-- The decoded account payload; its contents are opaque to the client. -/
structure AccountResponse where
  payload : String
deriving DecidableEq, Repr

/-- The configuration of an `AccountsClient` (the `http.Client` itself is
part of the per-call environment). -/
structure AccountsClient where
  endpoint : String
  apiKey : String
deriving DecidableEq, Repr

/-- The outcome of `http.Client.Do`: a transport failure or a response with
a status code and status line. -/
inductive DoResult
  | transportErr (msg : String)
  | response (statusCode : Nat) (status : String)
deriving DecidableEq, Repr

/-- A record of one invocation of `http.Client.Do`: the context the request
was built with, the method and the URL. -/
structure HttpCall where
  ctx : Nat
  method : String
  url : String
deriving DecidableEq, Repr

/-- Environment for `AccountsClient.Get`: the outcome of building the
request, of the HTTP round trip and of decoding the body. -/
structure AccountsGetEnv where
  reqErr : Option String
  doResult : DoResult
  decodeErr : Option String
  account : AccountResponse
deriving DecidableEq, Repr

/-- Environment for `AccountsClient.Update`: additionally the outcome of
encoding the request body. -/
structure AccountsUpdateEnv where
  encodeErr : Option String
  reqErr : Option String
  doResult : DoResult
deriving DecidableEq, Repr

/-- Environment for `AccountsClient.Delete`. -/
structure AccountsDeleteEnv where
  reqErr : Option String
  doResult : DoResult
deriving DecidableEq, Repr

/-- `AccountsClient.Get`, returning the result and the list of HTTP calls
issued.  The only success status is 200. -/
def accountsGet (c : AccountsClient) (ctx : Nat) (accountID : UUID)
    (env : AccountsGetEnv) : Except String AccountResponse × List HttpCall :=
  match env.reqErr with
  | some e => (.error ("error creating request: " ++ e), [])
  | none =>
    let call : HttpCall := ⟨ctx, "GET", c.endpoint ++ "/accounts/" ++ uuidString accountID⟩
    match env.doResult with
    | .transportErr e => (.error ("http error: " ++ e), [call])
    | .response statusCode status =>
      if statusCode ≠ 200 then (.error ("status code " ++ status), [call])
      else
        match env.decodeErr with
        | some e => (.error ("failed to decode response: " ++ e), [call])
        | none => (.ok env.account, [call])

/-- `AccountsClient.Update`: encode, build the request, issue it once;
200 and 204 are the success statuses. -/
def accountsUpdate (c : AccountsClient) (ctx : Nat) (accountID : UUID)
    (env : AccountsUpdateEnv) : Except String Unit × List HttpCall :=
  match env.encodeErr with
  | some e => (.error ("failed to encode data: " ++ e), [])
  | none =>
    match env.reqErr with
    | some e => (.error ("error creating request: " ++ e), [])
    | none =>
      let call : HttpCall := ⟨ctx, "PATCH", c.endpoint ++ "/accounts/" ++ uuidString accountID⟩
      match env.doResult with
      | .transportErr e => (.error ("http error: " ++ e), [call])
      | .response statusCode status =>
        if statusCode ≠ 200 ∧ statusCode ≠ 204 then
          (.error ("status code " ++ status), [call])
        else (.ok (), [call])

/-- `AccountsClient.Delete`: build the request, issue it once; 200 and 204
are the success statuses. -/
def accountsDelete (c : AccountsClient) (ctx : Nat) (accountID : UUID)
    (env : AccountsDeleteEnv) : Except String Unit × List HttpCall :=
  match env.reqErr with
  | some e => (.error ("error creating request: " ++ e), [])
  | none =>
    let call : HttpCall := ⟨ctx, "DELETE", c.endpoint ++ "/accounts/" ++ uuidString accountID⟩
    match env.doResult with
    | .transportErr e => (.error ("http error: " ++ e), [call])
    | .response statusCode status =>
      if statusCode ≠ 200 ∧ statusCode ≠ 204 then
        (.error ("status code " ++ status), [call])
      else (.ok (), [call])

/-! ## Terraform framework value types

`types.String` / `types.Bool` / `types.List` values are null, unknown or
known; `ValueString` / `ValueBool` return the zero value unless known.
`customtypes.UUIDValue` and `customtypes.TimestampValue` are modelled as
`Option` (null or known); `jsontypes.Normalized` is a string value holding
JSON text. -/

/-- A `types.String` (also used for `jsontypes.Normalized`). -/
inductive TFString
  | null
  | unknown
  | val (s : String)
deriving DecidableEq, Repr

/-- `ValueString`: the known string, or `""`. -/
def TFString.valueString : TFString → String
  | .val s => s
  | _ => ""

/-- `IsNull`. -/
def TFString.isNull : TFString → Bool
  | .null => true
  | _ => false

/-- A `types.Bool`. -/
inductive TFBool
  | null
  | unknown
  | val (b : Bool)
deriving DecidableEq, Repr

/-- `ValueBool`: the known boolean, or `false`. -/
def TFBool.valueBool : TFBool → Bool
  | .val b => b
  | _ => false

/-- A `types.List` of strings. -/
inductive TFList
  | null
  | unknown
  | val (xs : List String)
deriving DecidableEq, Repr

/-- `ElementsAs(ctx, &tags, false)`: succeeds exactly on a known list (a
null or unknown list yields diagnostics). -/
def TFList.elementsAs : TFList → Option (List String)
  | .val xs => some xs
  | _ => none

/-- `customtypes.UUIDValue.ValueUUID`: the known UUID, or the zero UUID. -/
def valueUUID (v : Option UUID) : UUID := v.getD uuidNil

/-! ## The deployment API and resource model

`api.Deployment` is the decoded API response; its `Parameters` map is kept
opaque (field `parametersRepr`), and the outcome of `json.Marshal` on it is
an environment field. -/

/-- `api.Deployment`, restricted to the fields the resource reads. -/
structure Deployment where
  id : UUID
  created : Option Nat
  updated : Option Nat
  description : String
  enforceParameterSchema : Bool
  entrypoint : String
  flowID : UUID
  manifestPath : String
  name : String
  path : String
  paused : Bool
  version : String
  workPoolName : String
  workQueueName : String
  tags : List String
  parametersRepr : String
deriving DecidableEq, Repr

/-- `DeploymentResourceModel` (the `tfsdk` model). -/
structure DeploymentResourceModel where
  id : TFString
  created : Option Nat
  updated : Option Nat
  accountID : Option UUID
  workspaceID : Option UUID
  description : TFString
  enforceParameterSchema : TFBool
  entrypoint : TFString
  flowID : Option UUID
  manifestPath : TFString
  name : TFString
  parameters : TFString
  path : TFString
  paused : TFBool
  tags : TFList
  version : TFString
  workPoolName : TFString
  workQueueName : TFString
deriving DecidableEq, Repr

/-- `api.DeploymentCreate` (the parameters map is represented by the JSON
text it was unmarshalled from). -/
structure DeploymentCreate where
  description : String
  enforceParameterSchema : Bool
  entrypoint : String
  flowID : UUID
  manifestPath : String
  name : String
  parametersRepr : String
  path : String
  paused : Bool
  tags : List String
  version : String
  workPoolName : String
  workQueueName : String
deriving DecidableEq, Repr

/-- `api.DeploymentUpdate`. -/
structure DeploymentUpdate where
  description : String
  enforceParameterSchema : Bool
  entrypoint : String
  manifestPath : String
  parametersRepr : String
  path : String
  paused : Bool
  tags : List String
  version : String
  workPoolName : String
  workQueueName : String
deriving DecidableEq, Repr

/-- One call on the deployments API client, tagged with the request context
it was given. -/
inductive ApiCall
  | create (ctx : Nat) (payload : DeploymentCreate)
  | get (ctx : Nat) (id : UUID)
  | update (ctx : Nat) (id : UUID) (payload : DeploymentUpdate)
  | delete (ctx : Nat) (id : UUID)
deriving DecidableEq, Repr

/-- The observable outcome of one resource operation: the error summaries
added to the diagnostics in order, the API calls issued in order, the model
passed to the final successful `resp.State.Set` (if reached), and whether
the operation dereferenced a nil pointer (a Go runtime panic). -/
structure OpOutcome where
  diags : List String
  calls : List ApiCall
  stateSet : Option DeploymentResourceModel
  panicked : Bool
deriving DecidableEq, Repr

/-- `copyDeploymentToModel`: writes the response fields into the model and
returns whether the tags conversion produced diagnostics.  The model is
mutated through a pointer in Go, so the scalar fields are updated even when
the tags conversion fails; `tagsConvFail` is the outcome of
`types.ListValueFrom` on the response's tags. -/
def copyDeploymentToModel (deployment : Deployment) (tagsConvFail : Bool)
    (model : DeploymentResourceModel) : Bool × DeploymentResourceModel :=
  let model := { model with
    id := TFString.val (uuidString deployment.id)
    created := deployment.created
    updated := deployment.updated
    description := TFString.val deployment.description
    enforceParameterSchema := TFBool.val deployment.enforceParameterSchema
    entrypoint := TFString.val deployment.entrypoint
    flowID := some deployment.flowID
    manifestPath := TFString.val deployment.manifestPath
    name := TFString.val deployment.name
    path := TFString.val deployment.path
    paused := TFBool.val deployment.paused
    version := TFString.val deployment.version
    workPoolName := TFString.val deployment.workPoolName
    workQueueName := TFString.val deployment.workQueueName }
  if tagsConvFail then (true, model)
  else (false, { model with tags := TFList.val deployment.tags })

/-- `jsontypes.Normalized.Unmarshal` succeeds exactly on a known value that
is valid JSON; `jsonInvalid` is the environment's verdict on the text. -/
def paramsUnmarshalOK (parameters : TFString) (jsonInvalid : Bool) : Bool :=
  match parameters with
  | .val _ => !jsonInvalid
  | _ => false

/-- The diagnostic summary added when the deployments client cannot be
constructed (`r.client.Deployments` returned an error). -/
def clientErrDiags (clientErr : Option String) : List String :=
  match clientErr with
  | some _ => ["Error creating deployment client"]
  | none => []

/-- The `api.DeploymentCreate` payload built by `Create` from the plan and
the converted tags. -/
def createPayloadOf (plan : DeploymentResourceModel) (tags : List String) :
    DeploymentCreate :=
  { description := plan.description.valueString
    enforceParameterSchema := plan.enforceParameterSchema.valueBool
    entrypoint := plan.entrypoint.valueString
    flowID := valueUUID plan.flowID
    manifestPath := plan.manifestPath.valueString
    name := plan.name.valueString
    parametersRepr := plan.parameters.valueString
    path := plan.path.valueString
    paused := plan.paused.valueBool
    tags := tags
    version := plan.version.valueString
    workPoolName := plan.workPoolName.valueString
    workQueueName := plan.workQueueName.valueString }

/-- The `api.DeploymentUpdate` payload built by `Update` from the planned
model and the converted tags. -/
def updatePayloadOf (model : DeploymentResourceModel) (tags : List String) :
    DeploymentUpdate :=
  { description := model.description.valueString
    enforceParameterSchema := model.enforceParameterSchema.valueBool
    entrypoint := model.entrypoint.valueString
    manifestPath := model.manifestPath.valueString
    parametersRepr := model.parameters.valueString
    path := model.path.valueString
    paused := model.paused.valueBool
    tags := tags
    version := model.version.valueString
    workPoolName := model.workPoolName.valueString
    workQueueName := model.workQueueName.valueString }

/-! ## DeploymentResource.Create -/

/-- Environment for `Create`: the model decoded from the configuration
(`none` = `req.Config.Get` produced error diagnostics), the client
construction error, whether the parameters JSON is invalid, the API result,
the tags-conversion outcome inside `copyDeploymentToModel`, and whether the
final `resp.State.Set` produced error diagnostics. -/
structure CreateEnv where
  configGet : Option DeploymentResourceModel
  clientErr : Option String
  jsonInvalid : Bool
  createResult : Except String Deployment
  tagsConvFail : Bool
  stateSetFail : Bool
deriving DecidableEq, Repr

/-- `DeploymentResource.Create`, translated statement by statement.  Note
that a client-construction error adds a diagnostic without returning, so the
operation stops at the next cumulative `HasError` check (after the tags
conversion), before any API call. -/
def deploymentCreate (ctx : Nat) (env : CreateEnv) : OpOutcome :=
  match env.configGet with
  | none => ⟨["Error reading Terraform configuration"], [], none, false⟩
  | some plan =>
    let diagsA := clientErrDiags env.clientErr ++
      (if plan.tags.elementsAs.isNone then ["Error converting tags"] else [])
    if diagsA.isEmpty then
      if paramsUnmarshalOK plan.parameters env.jsonInvalid then
        let payload := createPayloadOf plan (plan.tags.elementsAs.getD [])
        match env.createResult with
        | .error _ => ⟨["Error creating deployment"], [ApiCall.create ctx payload], none, false⟩
        | .ok deployment =>
          let copied := copyDeploymentToModel deployment env.tagsConvFail plan
          if copied.1 then
            ⟨["Error converting tags"], [ApiCall.create ctx payload], none, false⟩
          else if env.stateSetFail then
            ⟨["Error setting Terraform state"], [ApiCall.create ctx payload], none, false⟩
          else ⟨[], [ApiCall.create ctx payload], some copied.2, false⟩
      else ⟨["Error unmarshaling parameters"], [], none, false⟩
    else ⟨diagsA, [], none, false⟩

/-! ## DeploymentResource.Read -/

/-- Environment for `Read`: the model decoded from the prior state, the
client construction error, the `client.Get` result, the tags-conversion
outcome, the result of `json.Marshal` on the response's parameters map, and
the outcome of the final `resp.State.Set`. -/
structure ReadEnv where
  stateGet : Option DeploymentResourceModel
  clientErr : Option String
  getResult : Except String Deployment
  tagsConvFail : Bool
  paramsJSON : Except String String
  stateSetFail : Bool
deriving DecidableEq, Repr

/-- `DeploymentResource.Read`, translated statement by statement.  A
client-construction error adds a diagnostic without returning; when the
state's `id` is null no API call is made, the deployment pointer stays nil,
and `copyDeploymentToModel` dereferences it (`panicked`) unless the pending
client error made the `err != nil` check return first.  A failure to marshal
the parameters adds a diagnostic without returning, and the state is still
set with empty parameters text. -/
def deploymentRead (ctx : Nat) (env : ReadEnv) : OpOutcome :=
  match env.stateGet with
  | none => ⟨["Error reading Terraform state"], [], none, false⟩
  | some model =>
    if model.id.isNull then
      match env.clientErr with
      | some _ =>
        ⟨clientErrDiags env.clientErr ++ ["Error refreshing deployment state"], [], none, false⟩
      | none => ⟨[], [], none, true⟩
    else
      match uuidParse model.id.valueString with
      | none =>
        ⟨clientErrDiags env.clientErr ++ ["Error parsing Deployment ID"], [], none, false⟩
      | some deploymentID =>
        match env.getResult with
        | .error _ =>
          ⟨clientErrDiags env.clientErr ++ ["Error refreshing deployment state"],
            [ApiCall.get ctx deploymentID], none, false⟩
        | .ok deployment =>
          let copied := copyDeploymentToModel deployment env.tagsConvFail model
          let diags1 := clientErrDiags env.clientErr ++
            (if copied.1 then ["Error converting tags"] else [])
          if diags1.isEmpty then
            let serialized := match env.paramsJSON with
              | .error _ => (["Error serializing parameters"], "")
              | .ok s => (([] : List String), s)
            let model2 := { copied.2 with parameters := TFString.val serialized.2 }
            if env.stateSetFail then
              ⟨serialized.1 ++ ["Error setting Terraform state"],
                [ApiCall.get ctx deploymentID], none, false⟩
            else ⟨serialized.1, [ApiCall.get ctx deploymentID], some model2, false⟩
          else ⟨diags1, [ApiCall.get ctx deploymentID], none, false⟩

/-! ## DeploymentResource.Update -/

/-- Environment for `Update`: the model decoded from the plan, the client
construction error, whether the planned parameters JSON is invalid, the
`client.Update` error (if any), the `client.Get` result, the
tags-conversion outcome, the `json.Marshal` result on the response's
parameters, and the outcome of the final `resp.State.Set`. -/
structure UpdateEnv where
  planGet : Option DeploymentResourceModel
  clientErr : Option String
  jsonInvalid : Bool
  updateErr : Option String
  getResult : Except String Deployment
  tagsConvFail : Bool
  paramsJSON : Except String String
  stateSetFail : Bool
deriving DecidableEq, Repr

/-- `DeploymentResource.Update`, translated statement by statement.  A
client-construction error adds a diagnostic without returning and the
operation stops at the cumulative `HasError` check after the tags
conversion; on the success path the operation issues an update call and
then a get call to refresh the state. -/
def deploymentUpdate (ctx : Nat) (env : UpdateEnv) : OpOutcome :=
  match env.planGet with
  | none => ⟨["Error reading Terraform plan"], [], none, false⟩
  | some model =>
    match uuidParse model.id.valueString with
    | none =>
      ⟨clientErrDiags env.clientErr ++ ["Error parsing Deployment ID"], [], none, false⟩
    | some deploymentID =>
      let diagsA := clientErrDiags env.clientErr ++
        (if model.tags.elementsAs.isNone then ["Error converting tags"] else [])
      if diagsA.isEmpty then
        if paramsUnmarshalOK model.parameters env.jsonInvalid then
          let payload := updatePayloadOf model (model.tags.elementsAs.getD [])
          match env.updateErr with
          | some _ =>
            ⟨["Error updating deployment"], [ApiCall.update ctx deploymentID payload], none, false⟩
          | none =>
            match env.getResult with
            | .error _ =>
              ⟨["Error refreshing Deployment state"],
                [ApiCall.update ctx deploymentID payload, ApiCall.get ctx deploymentID],
                none, false⟩
            | .ok deployment =>
              let copied := copyDeploymentToModel deployment env.tagsConvFail model
              if copied.1 then
                ⟨["Error converting tags"],
                  [ApiCall.update ctx deploymentID payload, ApiCall.get ctx deploymentID],
                  none, false⟩
              else
                match env.paramsJSON with
                | .error _ =>
                  ⟨["Error serializing parameters"],
                    [ApiCall.update ctx deploymentID payload, ApiCall.get ctx deploymentID],
                    none, false⟩
                | .ok s =>
                  let model2 := { copied.2 with parameters := TFString.val s }
                  if env.stateSetFail then
                    ⟨["Error setting Terraform state"],
                      [ApiCall.update ctx deploymentID payload, ApiCall.get ctx deploymentID],
                      none, false⟩
                  else
                    ⟨[], [ApiCall.update ctx deploymentID payload, ApiCall.get ctx deploymentID],
                      some model2, false⟩
        else ⟨["Error unmarshaling parameters"], [], none, false⟩
      else ⟨diagsA, [], none, false⟩

/-! ## DeploymentResource.Delete -/

/-- Environment for `Delete`. -/
structure DeleteEnv where
  stateGet : Option DeploymentResourceModel
  clientErr : Option String
  deleteErr : Option String
  stateSetFail : Bool
deriving DecidableEq, Repr

/-- `DeploymentResource.Delete`, translated statement by statement.  A
client-construction error adds a diagnostic without returning, and there is
no cumulative `HasError` check before `client.Delete`, so the delete call is
still issued.  On success the (old) state model is passed to
`resp.State.Set`. -/
def deploymentDelete (ctx : Nat) (env : DeleteEnv) : OpOutcome :=
  match env.stateGet with
  | none => ⟨["Error reading Terraform state"], [], none, false⟩
  | some state =>
    match uuidParse state.id.valueString with
    | none =>
      ⟨clientErrDiags env.clientErr ++ ["Error parsing Deployment ID"], [], none, false⟩
    | some deploymentID =>
      match env.deleteErr with
      | some _ =>
        ⟨clientErrDiags env.clientErr ++ ["Error deleting Deployment"],
          [ApiCall.delete ctx deploymentID], none, false⟩
      | none =>
        if env.stateSetFail then
          ⟨clientErrDiags env.clientErr ++ ["Error setting Terraform state"],
            [ApiCall.delete ctx deploymentID], none, false⟩
        else
          ⟨clientErrDiags env.clientErr, [ApiCall.delete ctx deploymentID], some state, false⟩

/-! ## Helper lemmas: the shape of each operation's call trace -/

/-- `Read` issues no call, or exactly one `Get` with the UUID parsed from the
state's id and the caller's context. -/
theorem read_calls_shape (ctx : Nat) (env : ReadEnv) :
    (deploymentRead ctx env).calls = [] ∨
    ∃ model u, env.stateGet = some model ∧
      uuidParse model.id.valueString = some u ∧
      (deploymentRead ctx env).calls = [ApiCall.get ctx u] := by
  obtain ⟨sg, ce, gr, tc, pj, ss⟩ := env
  cases sg with
  | none => left; rfl
  | some model =>
    by_cases hn : model.id.isNull
    · cases ce <;> simp [deploymentRead, hn]
    · cases hu : uuidParse model.id.valueString with
      | none => left; simp [deploymentRead, hn, hu]
      | some u =>
        right
        refine ⟨model, u, rfl, hu, ?_⟩
        cases gr <;> cases ce <;> cases tc <;> cases pj <;> cases ss <;>
          simp [deploymentRead, hn, hu, clientErrDiags, copyDeploymentToModel]

/-- `Update` issues no call, exactly the update call, or the update call
followed by the refresh `Get`, all with the UUID parsed from the plan's id
and the caller's context. -/
theorem update_calls_shape (ctx : Nat) (env : UpdateEnv) :
    (deploymentUpdate ctx env).calls = [] ∨
    ∃ model u payload, env.planGet = some model ∧
      uuidParse model.id.valueString = some u ∧
      ((deploymentUpdate ctx env).calls = [ApiCall.update ctx u payload] ∨
       (deploymentUpdate ctx env).calls =
         [ApiCall.update ctx u payload, ApiCall.get ctx u]) := by
  obtain ⟨pg, ce, ji, ue, gr, tc, pj, ss⟩ := env
  cases pg with
  | none => left; rfl
  | some model =>
    cases hu : uuidParse model.id.valueString with
    | none => left; simp [deploymentUpdate, hu]
    | some u =>
      rcases ce with _ | e
      · by_cases ht : model.tags.elementsAs.isNone
        · left; simp [deploymentUpdate, hu, ht, clientErrDiags]
        · by_cases hp : paramsUnmarshalOK model.parameters ji
          · cases ue with
            | some e =>
              right
              exact ⟨model, u, updatePayloadOf model (model.tags.elementsAs.getD []),
                rfl, hu, Or.inl (by simp [deploymentUpdate, hu, ht, hp, clientErrDiags])⟩
            | none =>
              right
              refine ⟨model, u, updatePayloadOf model (model.tags.elementsAs.getD []),
                rfl, hu, Or.inr ?_⟩
              cases gr <;> cases tc <;> cases pj <;> cases ss <;>
                simp [deploymentUpdate, hu, ht, hp, clientErrDiags, copyDeploymentToModel]
          · left; simp [deploymentUpdate, hu, ht, hp, clientErrDiags]
      · left; simp [deploymentUpdate, hu, clientErrDiags]

/-- `Delete` issues no call or exactly one `Delete` with the UUID parsed
from the state's id and the caller's context. -/
theorem delete_calls_shape (ctx : Nat) (env : DeleteEnv) :
    (deploymentDelete ctx env).calls = [] ∨
    ∃ model u, env.stateGet = some model ∧
      uuidParse model.id.valueString = some u ∧
      (deploymentDelete ctx env).calls = [ApiCall.delete ctx u] := by
  obtain ⟨sg, ce, de, ss⟩ := env
  cases sg with
  | none => left; rfl
  | some model =>
    cases hu : uuidParse model.id.valueString with
    | none => left; simp [deploymentDelete, hu]
    | some u =>
      right
      refine ⟨model, u, rfl, hu, ?_⟩
      cases de <;> cases ce <;> cases ss <;> simp [deploymentDelete, hu, clientErrDiags]

/-- `Create` issues no call or exactly one `Create` with the payload built
from the plan and the caller's context. -/
theorem create_calls_shape (ctx : Nat) (env : CreateEnv) :
    (deploymentCreate ctx env).calls = [] ∨
    ∃ plan, env.configGet = some plan ∧
      (deploymentCreate ctx env).calls =
        [ApiCall.create ctx (createPayloadOf plan (plan.tags.elementsAs.getD []))] := by
  obtain ⟨cg, ce, ji, cr, tc, ss⟩ := env
  cases cg with
  | none => left; rfl
  | some plan =>
    by_cases ht : plan.tags.elementsAs.isNone
    · left; cases ce <;> simp [deploymentCreate, ht, clientErrDiags]
    · cases ce with
      | some e => left; simp [deploymentCreate, clientErrDiags]
      | none =>
        by_cases hp : paramsUnmarshalOK plan.parameters ji
        · right
          refine ⟨plan, rfl, ?_⟩
          cases cr <;> cases tc <;> cases ss <;>
            simp [deploymentCreate, ht, hp, clientErrDiags, copyDeploymentToModel]
        · left; simp [deploymentCreate, ht, hp, clientErrDiags]

/-- The context an API call was issued with. -/
def apiCallCtx : ApiCall → Nat
  | .create ctx _ => ctx
  | .get ctx _ => ctx
  | .update ctx _ _ => ctx
  | .delete ctx _ => ctx

/-! ## Theorems about the claims -/

/-- C1: for every import identifier, `ImportState` adds an error diagnostic
and sets no state when the identifier splits on `,` into more than two
parts, or into exactly two parts one of which is empty; otherwise it sets
the `id` attribute to the first part and, when a non-empty second part is
present, parses it as a UUID (adding an error diagnostic on failure) and
sets `workspace_id` to the parsed UUID's canonical string form. -/
theorem C1_importState_behavior (s : String) :
    ((stringsSplit s ',').length > 2 →
      (importState s).errors ≠ [] ∧ (importState s).idAttr = none ∧
        (importState s).workspaceIdAttr = none) ∧
    ((stringsSplit s ',').length = 2 →
      ((stringsSplit s ',').getD 0 "" = "" ∨ (stringsSplit s ',').getD 1 "" = "") →
      (importState s).errors ≠ [] ∧ (importState s).idAttr = none ∧
        (importState s).workspaceIdAttr = none) ∧
    (¬ (stringsSplit s ',').length > 2 →
      ¬ ((stringsSplit s ',').length = 2 ∧
          ((stringsSplit s ',').getD 0 "" = "" ∨ (stringsSplit s ',').getD 1 "" = "")) →
      (importState s).idAttr = some ((stringsSplit s ',').getD 0 "") ∧
      ((stringsSplit s ',').length = 2 → (stringsSplit s ',').getD 1 "" ≠ "" →
        ((uuidParse ((stringsSplit s ',').getD 1 "") = none →
            (importState s).errors ≠ [] ∧ (importState s).workspaceIdAttr = none) ∧
         (∀ u, uuidParse ((stringsSplit s ',').getD 1 "") = some u →
            (importState s).errors = [] ∧
              (importState s).workspaceIdAttr = some (uuidString u)))) ∧
      ((stringsSplit s ',').length ≠ 2 →
        (importState s).errors = [] ∧ (importState s).workspaceIdAttr = none)) := by
  have hs : importState s = importCore (stringsSplit s ',') := rfl
  rw [hs]
  rcases hps : stringsSplit s ',' with _ | ⟨a, _ | ⟨b, _ | ⟨c, l⟩⟩⟩
  · simp [importCore]
  · simp [importCore]
  · by_cases ha : a = "" <;> by_cases hb : b = "" <;>
      simp [importCore, ha, hb]
    cases hu : uuidParse b <;> simp [hu]
  · simp [importCore]

/-- C1 witness: a three-part identifier produces an error and no state. -/
theorem C1_witness :
    (importState "a,b,c").errors ≠ [] ∧ (importState "a,b,c").idAttr = none ∧
      (importState "a,b,c").workspaceIdAttr = none :=
  (C1_importState_behavior "a,b,c").1 (by decide)

/-- C4 counterexample: the empty import identifier is not of the form `id`
or `id,workspace_id` covered by the claim (the claim lists it as malformed),
yet `ImportState` adds no error diagnostic — it accepts it and sets the
`id` attribute to the empty string.  A single-part identifier that is not a
valid UUID is likewise accepted without error. -/
theorem C4_counterexample :
    (importState "").errors = [] ∧ (importState "").idAttr = some "" ∧
      (importState "not-a-uuid").errors = [] ∧
      (importState "not-a-uuid").idAttr = some "not-a-uuid" ∧
      uuidParse "not-a-uuid" = none := by decide

/-- C4 amended: `ImportState` adds an error diagnostic exactly when the
identifier splits on `,` into more than two parts, into exactly two parts
one of which is empty, or into exactly two non-empty parts whose second
part is not a valid UUID; the id part itself is never validated, so the
empty string and non-UUID single-part identifiers are accepted. -/
theorem C4_amended_importState_errors (s : String) :
    (importState s).errors ≠ [] ↔
      ((stringsSplit s ',').length > 2 ∨
       ((stringsSplit s ',').length = 2 ∧
         ((stringsSplit s ',').getD 0 "" = "" ∨ (stringsSplit s ',').getD 1 "" = "")) ∨
       ((stringsSplit s ',').length = 2 ∧ (stringsSplit s ',').getD 0 "" ≠ "" ∧
         (stringsSplit s ',').getD 1 "" ≠ "" ∧
         uuidParse ((stringsSplit s ',').getD 1 "") = none)) := by
  have hs : importState s = importCore (stringsSplit s ',') := rfl
  rw [hs]
  rcases hps : stringsSplit s ',' with _ | ⟨a, _ | ⟨b, _ | ⟨c, l⟩⟩⟩
  · simp [importCore]
  · simp [importCore]
  · by_cases ha : a = "" <;> by_cases hb : b = "" <;>
      simp [importCore, ha, hb]
    cases hu : uuidParse b <;> simp [hu]
  · simp [importCore]

/-- C4 amended witness: a two-part identifier whose second part is not a
UUID produces an error diagnostic. -/
theorem C4_amended_witness : (importState "foo,bar").errors ≠ [] :=
  (C4_amended_importState_errors "foo,bar").mpr (by decide)

/-- C3 counterexample: `AccountsClient.Get` treats every status other than
200 as an error, so a 204 No Content response — a 2xx status with no
transport failure and no JSON decode failure — is returned as an error,
contradicting "returns an error exactly when there is a transport failure,
a non-2xx HTTP status code, or a JSON decode/encode failure". -/
theorem C3_counterexample :
    (accountsGet ⟨"https://api.prefect.cloud", "key"⟩ 0 uuidNil
        ⟨none, DoResult.response 204 "204 No Content", none, ⟨"acct"⟩⟩).1 =
      Except.error "status code 204 No Content" ∧ 200 ≤ 204 ∧ 204 < 300 := by
  decide

/-- C3 amended: each `AccountsClient` operation returns an error exactly
when building the request fails, the HTTP round trip fails, the status code
is not 200 (for `Get`) or not 200/204 (for `Update`, `Delete`), or JSON
decoding (`Get`) / encoding (`Update`) fails; each error message wraps the
underlying failure verbatim; and each operation issues at most one HTTP
call, built with the caller's context — nothing is retried. -/
theorem C3_amended_accounts_errors :
    (∀ (c : AccountsClient) (ctx : Nat) (accountID : UUID) (env : AccountsGetEnv),
      ((∃ m, (accountsGet c ctx accountID env).1 = Except.error m) ↔
        (env.reqErr.isSome ∨ (∃ e, env.doResult = DoResult.transportErr e) ∨
          (∃ code st, env.doResult = DoResult.response code st ∧ code ≠ 200) ∨
          (env.decodeErr.isSome ∧ ∃ st, env.doResult = DoResult.response 200 st))) ∧
      (∀ e, env.reqErr = some e →
        (accountsGet c ctx accountID env).1 = Except.error ("error creating request: " ++ e)) ∧
      (∀ e, env.reqErr = none → env.doResult = DoResult.transportErr e →
        (accountsGet c ctx accountID env).1 = Except.error ("http error: " ++ e)) ∧
      (∀ code st, env.reqErr = none → env.doResult = DoResult.response code st → code ≠ 200 →
        (accountsGet c ctx accountID env).1 = Except.error ("status code " ++ st)) ∧
      (∀ e st, env.reqErr = none → env.doResult = DoResult.response 200 st →
        env.decodeErr = some e →
        (accountsGet c ctx accountID env).1 = Except.error ("failed to decode response: " ++ e)) ∧
      (accountsGet c ctx accountID env).2.length ≤ 1 ∧
      (∀ call ∈ (accountsGet c ctx accountID env).2, call.ctx = ctx)) ∧
    (∀ (c : AccountsClient) (ctx : Nat) (accountID : UUID) (env : AccountsUpdateEnv),
      ((∃ m, (accountsUpdate c ctx accountID env).1 = Except.error m) ↔
        (env.encodeErr.isSome ∨ (env.encodeErr = none ∧ env.reqErr.isSome) ∨
          (∃ e, env.doResult = DoResult.transportErr e) ∨
          (∃ code st, env.doResult = DoResult.response code st ∧ code ≠ 200 ∧ code ≠ 204))) ∧
      (∀ e, env.encodeErr = some e →
        (accountsUpdate c ctx accountID env).1 = Except.error ("failed to encode data: " ++ e)) ∧
      (∀ e, env.encodeErr = none → env.reqErr = none → env.doResult = DoResult.transportErr e →
        (accountsUpdate c ctx accountID env).1 = Except.error ("http error: " ++ e)) ∧
      (∀ code st, env.encodeErr = none → env.reqErr = none →
        env.doResult = DoResult.response code st → code ≠ 200 → code ≠ 204 →
        (accountsUpdate c ctx accountID env).1 = Except.error ("status code " ++ st)) ∧
      (accountsUpdate c ctx accountID env).2.length ≤ 1 ∧
      (∀ call ∈ (accountsUpdate c ctx accountID env).2, call.ctx = ctx)) ∧
    (∀ (c : AccountsClient) (ctx : Nat) (accountID : UUID) (env : AccountsDeleteEnv),
      ((∃ m, (accountsDelete c ctx accountID env).1 = Except.error m) ↔
        (env.reqErr.isSome ∨ (∃ e, env.doResult = DoResult.transportErr e) ∨
          (∃ code st, env.doResult = DoResult.response code st ∧ code ≠ 200 ∧ code ≠ 204))) ∧
      (∀ e, env.reqErr = none → env.doResult = DoResult.transportErr e →
        (accountsDelete c ctx accountID env).1 = Except.error ("http error: " ++ e)) ∧
      (∀ code st, env.reqErr = none → env.doResult = DoResult.response code st →
        code ≠ 200 → code ≠ 204 →
        (accountsDelete c ctx accountID env).1 = Except.error ("status code " ++ st)) ∧
      (accountsDelete c ctx accountID env).2.length ≤ 1 ∧
      (∀ call ∈ (accountsDelete c ctx accountID env).2, call.ctx = ctx)) := by
  refine ⟨?_, ?_, ?_⟩
  · intro c ctx accountID env
    obtain ⟨reqErr, doResult, decodeErr, account⟩ := env
    cases reqErr with
    | some e => simp [accountsGet]
    | none =>
      cases doResult with
      | transportErr e => simp [accountsGet]
      | response code st =>
        by_cases hc : code = 200
        · subst hc
          cases decodeErr <;> simp [accountsGet]
        · simp [accountsGet, hc]
  · intro c ctx accountID env
    obtain ⟨encodeErr, reqErr, doResult⟩ := env
    cases encodeErr with
    | some e => simp [accountsUpdate]
    | none =>
      cases reqErr with
      | some e => simp [accountsUpdate]
      | none =>
        cases doResult with
        | transportErr e => simp [accountsUpdate]
        | response code st =>
          by_cases hc : code = 200
          · subst hc
            simp [accountsUpdate]
          · by_cases hc4 : code = 204
            · subst hc4
              simp [accountsUpdate]
            · simp [accountsUpdate, hc, hc4]
  · intro c ctx accountID env
    obtain ⟨reqErr, doResult⟩ := env
    cases reqErr with
    | some e => simp [accountsDelete]
    | none =>
      cases doResult with
      | transportErr e => simp [accountsDelete]
      | response code st =>
        by_cases hc : code = 200
        · subst hc
          simp [accountsDelete]
        · by_cases hc4 : code = 204
          · subst hc4
            simp [accountsDelete]
          · simp [accountsDelete, hc, hc4]

/-- C3 amended witness: a transport failure on `Get` is wrapped verbatim,
and that call passes the caller's context through. -/
theorem C3_amended_witness :
    (accountsGet ⟨"https://api.prefect.cloud", "key"⟩ 7 uuidNil
        ⟨none, DoResult.transportErr "connection refused", none, ⟨"acct"⟩⟩).1 =
      Except.error ("http error: " ++ "connection refused") :=
  ((C3_amended_accounts_errors.1 ⟨"https://api.prefect.cloud", "key"⟩ 7 uuidNil
      ⟨none, DoResult.transportErr "connection refused", none, ⟨"acct"⟩⟩).2.2.1
    "connection refused" rfl rfl)

/-- C5: `Read`, `Update` and `Delete` each parse the stored id string as a
UUID; on failure they add an error diagnostic and issue no API call, and
every API call they do issue carries a successfully parsed UUID (for `Read`
the id is only parsed when it is non-null; a null id leads to no API call
at all, which the trace conjuncts also cover). -/
theorem C5_uuid_invariant :
    (∀ (ctx : Nat) (env : ReadEnv) (model : DeploymentResourceModel),
      env.stateGet = some model → model.id.isNull = false →
      uuidParse model.id.valueString = none →
      "Error parsing Deployment ID" ∈ (deploymentRead ctx env).diags ∧
        (deploymentRead ctx env).calls = []) ∧
    (∀ (ctx : Nat) (env : UpdateEnv) (model : DeploymentResourceModel),
      env.planGet = some model → uuidParse model.id.valueString = none →
      "Error parsing Deployment ID" ∈ (deploymentUpdate ctx env).diags ∧
        (deploymentUpdate ctx env).calls = []) ∧
    (∀ (ctx : Nat) (env : DeleteEnv) (model : DeploymentResourceModel),
      env.stateGet = some model → uuidParse model.id.valueString = none →
      "Error parsing Deployment ID" ∈ (deploymentDelete ctx env).diags ∧
        (deploymentDelete ctx env).calls = []) ∧
    (∀ (ctx : Nat) (env : ReadEnv) (model : DeploymentResourceModel) (call : ApiCall),
      env.stateGet = some model → call ∈ (deploymentRead ctx env).calls →
      ∃ u, uuidParse model.id.valueString = some u ∧ call = ApiCall.get ctx u) ∧
    (∀ (ctx : Nat) (env : UpdateEnv) (model : DeploymentResourceModel) (call : ApiCall),
      env.planGet = some model → call ∈ (deploymentUpdate ctx env).calls →
      ∃ u, uuidParse model.id.valueString = some u ∧
        (call = ApiCall.get ctx u ∨ ∃ p, call = ApiCall.update ctx u p)) ∧
    (∀ (ctx : Nat) (env : DeleteEnv) (model : DeploymentResourceModel) (call : ApiCall),
      env.stateGet = some model → call ∈ (deploymentDelete ctx env).calls →
      ∃ u, uuidParse model.id.valueString = some u ∧ call = ApiCall.delete ctx u) := by
  refine ⟨?_, ?_, ?_, ?_, ?_, ?_⟩
  · intro ctx env model hget hnull hparse
    obtain ⟨sg, ce, gr, tc, pj, ss⟩ := env
    cases sg with
    | none => exact absurd hget (by simp)
    | some m0 =>
      obtain rfl : m0 = model := by simpa using hget
      cases ce <;> simp [deploymentRead, hnull, hparse, clientErrDiags]
  · intro ctx env model hget hparse
    obtain ⟨pg, ce, ji, ue, gr, tc, pj, ss⟩ := env
    cases pg with
    | none => exact absurd hget (by simp)
    | some m0 =>
      obtain rfl : m0 = model := by simpa using hget
      cases ce <;> simp [deploymentUpdate, hparse, clientErrDiags]
  · intro ctx env model hget hparse
    obtain ⟨sg, ce, de, ss⟩ := env
    cases sg with
    | none => exact absurd hget (by simp)
    | some m0 =>
      obtain rfl : m0 = model := by simpa using hget
      cases ce <;> simp [deploymentDelete, hparse, clientErrDiags]
  · intro ctx env model call hget hmem
    rcases read_calls_shape ctx env with h | ⟨m2, u, hget2, hu, hcalls⟩
    · rw [h] at hmem; cases hmem
    · have hm : m2 = model := by
        have := hget.symm.trans hget2
        exact (Option.some.inj this).symm
      subst hm
      rw [hcalls] at hmem
      simp only [List.mem_singleton] at hmem
      exact ⟨u, hu, hmem⟩
  · intro ctx env model call hget hmem
    rcases update_calls_shape ctx env with h | ⟨m2, u, p, hget2, hu, hcalls | hcalls⟩
    · rw [h] at hmem; cases hmem
    · have hm : m2 = model := by
        have := hget.symm.trans hget2
        exact (Option.some.inj this).symm
      subst hm
      rw [hcalls] at hmem
      simp only [List.mem_singleton] at hmem
      exact ⟨u, hu, Or.inr ⟨p, hmem⟩⟩
    · have hm : m2 = model := by
        have := hget.symm.trans hget2
        exact (Option.some.inj this).symm
      subst hm
      rw [hcalls] at hmem
      rcases List.mem_pair.mp hmem with h1 | h1
      · exact ⟨u, hu, Or.inr ⟨p, h1⟩⟩
      · exact ⟨u, hu, Or.inl h1⟩
  · intro ctx env model call hget hmem
    rcases delete_calls_shape ctx env with h | ⟨m2, u, hget2, hu, hcalls⟩
    · rw [h] at hmem; cases hmem
    · have hm : m2 = model := by
        have := hget.symm.trans hget2
        exact (Option.some.inj this).symm
      subst hm
      rw [hcalls] at hmem
      simp only [List.mem_singleton] at hmem
      exact ⟨u, hu, hmem⟩

/-- C5 witness: `Delete` on a state whose id is not a UUID adds the parse
diagnostic and issues no API call. -/
theorem C5_witness :
    "Error parsing Deployment ID" ∈
        (deploymentDelete 0
          ⟨some { id := TFString.val "not-a-uuid", created := none, updated := none,
                  accountID := none, workspaceID := none, description := TFString.null,
                  enforceParameterSchema := TFBool.null, entrypoint := TFString.null,
                  flowID := none, manifestPath := TFString.null, name := TFString.null,
                  parameters := TFString.null, path := TFString.null, paused := TFBool.null,
                  tags := TFList.null, version := TFString.null,
                  workPoolName := TFString.null, workQueueName := TFString.null },
            none, none, false⟩).diags ∧
      (deploymentDelete 0
          ⟨some { id := TFString.val "not-a-uuid", created := none, updated := none,
                  accountID := none, workspaceID := none, description := TFString.null,
                  enforceParameterSchema := TFBool.null, entrypoint := TFString.null,
                  flowID := none, manifestPath := TFString.null, name := TFString.null,
                  parameters := TFString.null, path := TFString.null, paused := TFBool.null,
                  tags := TFList.null, version := TFString.null,
                  workPoolName := TFString.null, workQueueName := TFString.null },
            none, none, false⟩).calls = [] :=
  C5_uuid_invariant.2.2.1 0 _ _ rfl (by decide)

/-- A concrete resource model whose id is a valid UUID, used as input in
counterexamples and witnesses. -/
def sampleModel : DeploymentResourceModel :=
  { id := TFString.val "11111111-2222-3333-4444-555555555555", created := none,
    updated := none, accountID := none, workspaceID := none,
    description := TFString.val "d", enforceParameterSchema := TFBool.val false,
    entrypoint := TFString.val "e", flowID := none,
    manifestPath := TFString.val "m", name := TFString.val "n",
    parameters := TFString.val "pj", path := TFString.val "p",
    paused := TFBool.val false, tags := TFList.val [], version := TFString.val "v",
    workPoolName := TFString.val "wp", workQueueName := TFString.val "wq" }

/-- A concrete API response, used as input in counterexamples and
witnesses. -/
def sampleDeployment : Deployment :=
  { id := ⟨[1, 2, 3, 4, 5, 6, 7, 8, 9, 10, 11, 12, 13, 14, 15, 16]⟩,
    created := some 1, updated := some 2, description := "desc",
    enforceParameterSchema := true, entrypoint := "entry",
    flowID := ⟨List.replicate 16 7⟩, manifestPath := "mp", name := "nm",
    path := "pa", paused := true, version := "ver", workPoolName := "pool",
    workQueueName := "queue", tags := ["t1"], parametersRepr := "rp" }

/-- C6 counterexample: a fully successful `Update` issues two API calls —
the update itself and then a `Get` to refresh the state — contradicting
"a single synchronous HTTP call per operation ... no additional HTTP calls
within the operation". -/
theorem C6_counterexample :
    ((deploymentUpdate 0 ⟨some sampleModel, none, false, none,
        Except.ok sampleDeployment, false, Except.ok "mj", false⟩).calls.length = 2) ∧
      (deploymentUpdate 0 ⟨some sampleModel, none, false, none,
        Except.ok sampleDeployment, false, Except.ok "mj", false⟩).diags = [] := by
  decide

/-- C6 amended: `Create`, `Read` and `Delete` issue at most one API call;
`Update` issues at most two — the update call and, only when it succeeded,
a single refresh `Get` for the same UUID; no call is ever repeated, and
every call is issued with the caller-supplied request context
(`AccountsClient.Get` likewise issues at most one HTTP call, built with the
caller's context). -/
theorem C6_amended_call_counts :
    (∀ (ctx : Nat) (env : CreateEnv), (deploymentCreate ctx env).calls.length ≤ 1 ∧
       ∀ call ∈ (deploymentCreate ctx env).calls, apiCallCtx call = ctx) ∧
    (∀ (ctx : Nat) (env : ReadEnv), (deploymentRead ctx env).calls.length ≤ 1 ∧
       ∀ call ∈ (deploymentRead ctx env).calls, apiCallCtx call = ctx) ∧
    (∀ (ctx : Nat) (env : DeleteEnv), (deploymentDelete ctx env).calls.length ≤ 1 ∧
       ∀ call ∈ (deploymentDelete ctx env).calls, apiCallCtx call = ctx) ∧
    (∀ (ctx : Nat) (env : UpdateEnv),
      ((deploymentUpdate ctx env).calls = [] ∨
       (∃ u p, (deploymentUpdate ctx env).calls = [ApiCall.update ctx u p]) ∨
       (∃ u p, (deploymentUpdate ctx env).calls =
          [ApiCall.update ctx u p, ApiCall.get ctx u])) ∧
      (deploymentUpdate ctx env).calls.Nodup ∧
      ∀ call ∈ (deploymentUpdate ctx env).calls, apiCallCtx call = ctx) ∧
    (∀ (c : AccountsClient) (ctx : Nat) (accountID : UUID) (env : AccountsGetEnv),
      (accountsGet c ctx accountID env).2.length ≤ 1 ∧
      ∀ call ∈ (accountsGet c ctx accountID env).2, call.ctx = ctx) := by
  refine ⟨?_, ?_, ?_, ?_, ?_⟩
  · intro ctx env
    rcases create_calls_shape ctx env with h | ⟨plan, _, h⟩ <;>
      rw [h] <;> simp [apiCallCtx]
  · intro ctx env
    rcases read_calls_shape ctx env with h | ⟨model, u, _, _, h⟩ <;>
      rw [h] <;> simp [apiCallCtx]
  · intro ctx env
    rcases delete_calls_shape ctx env with h | ⟨model, u, _, _, h⟩ <;>
      rw [h] <;> simp [apiCallCtx]
  · intro ctx env
    rcases update_calls_shape ctx env with h | ⟨model, u, p, _, _, h | h⟩
    · rw [h]; simp
    · rw [h]
      exact ⟨Or.inr (Or.inl ⟨u, p, rfl⟩), by simp, by simp [apiCallCtx]⟩
    · rw [h]
      exact ⟨Or.inr (Or.inr ⟨u, p, rfl⟩), by simp, by simp [apiCallCtx]⟩
  · intro c ctx accountID env
    obtain ⟨reqErr, doResult, decodeErr, account⟩ := env
    cases reqErr with
    | some e => simp [accountsGet]
    | none =>
      cases doResult with
      | transportErr e => simp [accountsGet]
      | response code st =>
        by_cases hc : code = 200
        · subst hc; cases decodeErr <;> simp [accountsGet]
        · simp [accountsGet, hc]

/-- C6 amended witness: the update call of a successful `Update` carries the
caller's context. -/
theorem C6_amended_witness :
    apiCallCtx (ApiCall.update 3
      ⟨[17, 17, 17, 17, 34, 34, 51, 51, 68, 68, 85, 85, 85, 85, 85, 85]⟩
      (updatePayloadOf sampleModel [])) = 3 :=
  (C6_amended_call_counts.2.2.2.1 3 ⟨some sampleModel, none, false, none,
      Except.ok sampleDeployment, false, Except.ok "mj", false⟩).2.2 _ (by decide)

/-- C7: when the Create API call returns an error, `Create` surfaces it as
a diagnostic and sets no state; it sets state only after a successful API
call. -/
theorem C7_create_error_no_state :
    (∀ (ctx : Nat) (env : CreateEnv) (e : String),
      env.createResult = Except.error e →
      (deploymentCreate ctx env).stateSet = none) ∧
    (∀ (ctx : Nat) (env : CreateEnv) (e : String),
      env.createResult = Except.error e → (deploymentCreate ctx env).calls ≠ [] →
      (deploymentCreate ctx env).diags = ["Error creating deployment"]) ∧
    (∀ (ctx : Nat) (env : CreateEnv) (m : DeploymentResourceModel),
      (deploymentCreate ctx env).stateSet = some m →
      ∃ d, env.createResult = Except.ok d ∧ (deploymentCreate ctx env).calls ≠ []) := by
  refine ⟨?_, ?_, ?_⟩
  · intro ctx env e hcr
    obtain ⟨cg, ce, ji, cr, tc, ss⟩ := env
    obtain rfl : cr = Except.error e := hcr
    cases cg with
    | none => rfl
    | some plan =>
      by_cases ht : plan.tags.elementsAs.isNone <;> cases ce <;>
        by_cases hp : paramsUnmarshalOK plan.parameters ji <;>
        simp [deploymentCreate, ht, hp, clientErrDiags]
  · intro ctx env e hcr hcalls
    obtain ⟨cg, ce, ji, cr, tc, ss⟩ := env
    obtain rfl : cr = Except.error e := hcr
    cases cg with
    | none => simp [deploymentCreate] at hcalls
    | some plan =>
      by_cases ht : plan.tags.elementsAs.isNone <;> cases ce <;>
        by_cases hp : paramsUnmarshalOK plan.parameters ji <;>
        simp_all [deploymentCreate, clientErrDiags]
  · intro ctx env m hstate
    obtain ⟨cg, ce, ji, cr, tc, ss⟩ := env
    cases cg with
    | none => simp [deploymentCreate] at hstate
    | some plan =>
      cases cr with
      | error e =>
        by_cases ht : plan.tags.elementsAs.isNone <;> cases ce <;>
          by_cases hp : paramsUnmarshalOK plan.parameters ji <;>
          simp_all [deploymentCreate, clientErrDiags]
      | ok d =>
        refine ⟨d, rfl, ?_⟩
        by_cases ht : plan.tags.elementsAs.isNone <;> cases ce <;>
          by_cases hp : paramsUnmarshalOK plan.parameters ji <;>
          cases tc <;> cases ss <;>
          simp_all [deploymentCreate, clientErrDiags, copyDeploymentToModel]

/-- C7 witness: a failing Create call yields the diagnostic and no state. -/
theorem C7_witness :
    (deploymentCreate 0 ⟨some sampleModel, none, false, Except.error "boom",
        false, false⟩).stateSet = none ∧
      (deploymentCreate 0 ⟨some sampleModel, none, false, Except.error "boom",
        false, false⟩).diags = ["Error creating deployment"] :=
  ⟨C7_create_error_no_state.1 0 _ "boom" rfl,
   C7_create_error_no_state.2.1 0 _ "boom" rfl (by decide)⟩

/-- C8: when `Read` is invoked on a state whose id attribute is null (and
the deployments client was constructed without error, as the concrete
client always is), no API call is made, no prior error stops the flow, and
`copyDeploymentToModel` is reached with the nil deployment pointer, which
it dereferences — a reachable nil-pointer dereference. -/
theorem C8_null_id_nil_deref (ctx : Nat) (env : ReadEnv)
    (model : DeploymentResourceModel) (hget : env.stateGet = some model)
    (hnull : model.id = TFString.null) (hce : env.clientErr = none) :
    (deploymentRead ctx env).panicked = true ∧
      (deploymentRead ctx env).calls = [] ∧
      (deploymentRead ctx env).stateSet = none := by
  obtain ⟨sg, ce, gr, tc, pj, ss⟩ := env
  obtain rfl : ce = none := hce
  cases sg with
  | none => exact absurd hget (by simp)
  | some m0 =>
    obtain rfl : m0 = model := by simpa using hget
    simp [deploymentRead, hnull, TFString.isNull]

/-- C8 witness: a concrete null-id state reaches the nil dereference. -/
theorem C8_witness :
    (deploymentRead 0 ⟨some { sampleModel with id := TFString.null }, none,
        Except.ok sampleDeployment, false, Except.ok "mj", false⟩).panicked = true ∧
      (deploymentRead 0 ⟨some { sampleModel with id := TFString.null }, none,
        Except.ok sampleDeployment, false, Except.ok "mj", false⟩).calls = [] ∧
      (deploymentRead 0 ⟨some { sampleModel with id := TFString.null }, none,
        Except.ok sampleDeployment, false, Except.ok "mj", false⟩).stateSet = none :=
  C8_null_id_nil_deref 0 _ _ rfl rfl rfl

/-- C9: when constructing the deployments client reports an error, `Read`
and `Delete` add the diagnostic but keep going: with a parsable id they
still invoke `Get` (resp. `Delete`) on the client value returned alongside
the error. -/
theorem C9_client_error_continues :
    (∀ (ctx : Nat) (env : ReadEnv) (model : DeploymentResourceModel)
        (e : String) (u : UUID),
      env.stateGet = some model → env.clientErr = some e →
      model.id.isNull = false → uuidParse model.id.valueString = some u →
      "Error creating deployment client" ∈ (deploymentRead ctx env).diags ∧
        ApiCall.get ctx u ∈ (deploymentRead ctx env).calls) ∧
    (∀ (ctx : Nat) (env : DeleteEnv) (model : DeploymentResourceModel)
        (e : String) (u : UUID),
      env.stateGet = some model → env.clientErr = some e →
      uuidParse model.id.valueString = some u →
      "Error creating deployment client" ∈ (deploymentDelete ctx env).diags ∧
        ApiCall.delete ctx u ∈ (deploymentDelete ctx env).calls) := by
  constructor
  · intro ctx env model e u hget hce hnull hu
    obtain ⟨sg, ce, gr, tc, pj, ss⟩ := env
    obtain rfl : ce = some e := hce
    cases sg with
    | none => exact absurd hget (by simp)
    | some m0 =>
      obtain rfl : m0 = model := by simpa using hget
      cases gr <;> simp [deploymentRead, hnull, hu, clientErrDiags]
  · intro ctx env model e u hget hce hu
    obtain ⟨sg, ce, de, ss⟩ := env
    obtain rfl : ce = some e := hce
    cases sg with
    | none => exact absurd hget (by simp)
    | some m0 =>
      obtain rfl : m0 = model := by simpa using hget
      cases de <;> cases ss <;> simp [deploymentDelete, hu, clientErrDiags]

/-- C9 witness: a concrete `Delete` with a failing client constructor still
issues the delete call and carries the client diagnostic. -/
theorem C9_witness :
    "Error creating deployment client" ∈
        (deploymentDelete 1 ⟨some sampleModel, some "x", none, false⟩).diags ∧
      ApiCall.delete 1 ⟨[17, 17, 17, 17, 34, 34, 51, 51, 68, 68, 85, 85, 85, 85, 85, 85]⟩ ∈
        (deploymentDelete 1 ⟨some sampleModel, some "x", none, false⟩).calls :=
  C9_client_error_continues.2 1 _ sampleModel "x" _ rfl rfl (by decide)

/-- C2: after a successful `Read` or `Update` (no error diagnostics, state
set), every state field written from the API response equals the
corresponding response field, and `parameters` is the JSON serialization of
the response's parameters map. -/
theorem C2_state_matches_response :
    (∀ (ctx : Nat) (env : ReadEnv) (d : Deployment) (m : DeploymentResourceModel),
      env.getResult = Except.ok d → (deploymentRead ctx env).diags = [] →
      (deploymentRead ctx env).stateSet = some m →
      m.id = TFString.val (uuidString d.id) ∧ m.created = d.created ∧
      m.updated = d.updated ∧ m.description = TFString.val d.description ∧
      m.enforceParameterSchema = TFBool.val d.enforceParameterSchema ∧
      m.entrypoint = TFString.val d.entrypoint ∧ m.flowID = some d.flowID ∧
      m.manifestPath = TFString.val d.manifestPath ∧ m.name = TFString.val d.name ∧
      m.path = TFString.val d.path ∧ m.paused = TFBool.val d.paused ∧
      m.version = TFString.val d.version ∧
      m.workPoolName = TFString.val d.workPoolName ∧
      m.workQueueName = TFString.val d.workQueueName ∧
      m.tags = TFList.val d.tags ∧
      (∃ s, env.paramsJSON = Except.ok s ∧ m.parameters = TFString.val s)) ∧
    (∀ (ctx : Nat) (env : UpdateEnv) (d : Deployment) (m : DeploymentResourceModel),
      env.getResult = Except.ok d → (deploymentUpdate ctx env).diags = [] →
      (deploymentUpdate ctx env).stateSet = some m →
      m.id = TFString.val (uuidString d.id) ∧ m.created = d.created ∧
      m.updated = d.updated ∧ m.description = TFString.val d.description ∧
      m.enforceParameterSchema = TFBool.val d.enforceParameterSchema ∧
      m.entrypoint = TFString.val d.entrypoint ∧ m.flowID = some d.flowID ∧
      m.manifestPath = TFString.val d.manifestPath ∧ m.name = TFString.val d.name ∧
      m.path = TFString.val d.path ∧ m.paused = TFBool.val d.paused ∧
      m.version = TFString.val d.version ∧
      m.workPoolName = TFString.val d.workPoolName ∧
      m.workQueueName = TFString.val d.workQueueName ∧
      m.tags = TFList.val d.tags ∧
      (∃ s, env.paramsJSON = Except.ok s ∧ m.parameters = TFString.val s)) := by
  constructor
  · intro ctx env d m hok hdiags hstate
    obtain ⟨sg, ce, gr, tc, pj, ss⟩ := env
    obtain rfl : gr = Except.ok d := hok
    cases sg with
    | none => simp [deploymentRead, copyDeploymentToModel] at hstate
    | some model =>
      by_cases hn : model.id.isNull
      · cases ce <;> simp [deploymentRead, hn, copyDeploymentToModel] at hstate
      · cases hu : uuidParse model.id.valueString with
        | none => simp [deploymentRead, hn, hu, copyDeploymentToModel] at hstate
        | some u =>
          cases ce with
          | some e =>
            cases tc <;>
              simp [deploymentRead, hn, hu, clientErrDiags, copyDeploymentToModel] at hstate
          | none =>
            cases tc with
            | true =>
              simp [deploymentRead, hn, hu, clientErrDiags, copyDeploymentToModel] at hstate
            | false =>
              cases pj with
              | error e2 =>
                cases ss <;>
                  simp [deploymentRead, hn, hu, clientErrDiags,
                    copyDeploymentToModel] at hdiags
              | ok s =>
                cases ss with
                | true => simp [deploymentRead, hn, hu, clientErrDiags, copyDeploymentToModel] at hstate
                | false =>
                  have hm := hstate
                  simp [deploymentRead, hn, hu, clientErrDiags, copyDeploymentToModel] at hm
                  subst hm
                  simp [copyDeploymentToModel]
  · intro ctx env d m hok hdiags hstate
    obtain ⟨pg, ce, ji, ue, gr, tc, pj, ss⟩ := env
    obtain rfl : gr = Except.ok d := hok
    cases pg with
    | none => simp [deploymentUpdate, copyDeploymentToModel] at hstate
    | some model =>
      cases hu : uuidParse model.id.valueString with
      | none => cases ce <;> simp [deploymentUpdate, hu, clientErrDiags, copyDeploymentToModel] at hstate
      | some u =>
        by_cases ht : model.tags.elementsAs.isNone
        · cases ce <;> simp [deploymentUpdate, hu, ht, clientErrDiags, copyDeploymentToModel] at hstate
        · cases ce with
          | some e => simp [deploymentUpdate, hu, ht, clientErrDiags, copyDeploymentToModel] at hstate
          | none =>
            by_cases hp : paramsUnmarshalOK model.parameters ji
            · cases ue with
              | some e2 => simp [deploymentUpdate, hu, ht, hp, clientErrDiags, copyDeploymentToModel] at hstate
              | none =>
                cases tc with
                | true =>
                  simp [deploymentUpdate, hu, ht, hp, clientErrDiags,
                    copyDeploymentToModel] at hstate
                | false =>
                  cases pj with
                  | error e2 =>
                    simp [deploymentUpdate, hu, ht, hp, clientErrDiags, copyDeploymentToModel] at hstate
                  | ok s =>
                    cases ss with
                    | true => simp [deploymentUpdate, hu, ht, hp, clientErrDiags, copyDeploymentToModel] at hstate
                    | false =>
                      have hm := hstate
                      simp [deploymentUpdate, hu, ht, hp, clientErrDiags, copyDeploymentToModel] at hm
                      subst hm
                      simp [copyDeploymentToModel]
            · simp [deploymentUpdate, hu, ht, hp, clientErrDiags,
                copyDeploymentToModel] at hstate

/-- C2 witness: a concrete successful `Read` writes the response's id into
the state. -/
theorem C2_witness :
    DeploymentResourceModel.id
        { id := TFString.val (uuidString sampleDeployment.id), created := some 1,
          updated := some 2, accountID := none, workspaceID := none,
          description := TFString.val "desc",
          enforceParameterSchema := TFBool.val true,
          entrypoint := TFString.val "entry", flowID := some sampleDeployment.flowID,
          manifestPath := TFString.val "mp", name := TFString.val "nm",
          parameters := TFString.val "mj", path := TFString.val "pa",
          paused := TFBool.val true, tags := TFList.val ["t1"],
          version := TFString.val "ver", workPoolName := TFString.val "pool",
          workQueueName := TFString.val "queue" } =
      TFString.val (uuidString sampleDeployment.id) :=
  (C2_state_matches_response.1 0
      ⟨some sampleModel, none, Except.ok sampleDeployment, false, Except.ok "mj", false⟩
      sampleDeployment _ rfl (by decide) (by decide)).1

/-- C10: `copyDeploymentToModel` never touches the model's `account_id`,
`workspace_id` or `parameters` fields (it writes exactly the response
fields: id, created, updated, description, enforce_parameter_schema,
entrypoint, flow_id, manifest_path, name, path, paused, version,
work_pool_name, work_queue_name and tags); consequently after `Create` the
state's parameters field still holds the planned value, not one taken from
the API response. -/
theorem C10_copy_frame :
    (∀ (d : Deployment) (tcf : Bool) (m : DeploymentResourceModel),
      (copyDeploymentToModel d tcf m).2.accountID = m.accountID ∧
      (copyDeploymentToModel d tcf m).2.workspaceID = m.workspaceID ∧
      (copyDeploymentToModel d tcf m).2.parameters = m.parameters) ∧
    (∀ (ctx : Nat) (env : CreateEnv) (plan m : DeploymentResourceModel),
      env.configGet = some plan → (deploymentCreate ctx env).stateSet = some m →
      m.parameters = plan.parameters ∧ m.accountID = plan.accountID ∧
      m.workspaceID = plan.workspaceID) := by
  constructor
  · intro d tcf m
    cases tcf <;> simp [copyDeploymentToModel]
  · intro ctx env plan m hcfg hstate
    obtain ⟨cg, ce, ji, cr, tc, ss⟩ := env
    cases cg with
    | none => simp [deploymentCreate, copyDeploymentToModel] at hstate
    | some plan0 =>
      obtain rfl : plan0 = plan := by simpa using hcfg
      cases cr with
      | error e =>
        by_cases ht : plan0.tags.elementsAs.isNone <;> cases ce <;>
          by_cases hp : paramsUnmarshalOK plan0.parameters ji <;>
          simp_all [deploymentCreate, clientErrDiags]
      | ok d =>
        by_cases ht : plan0.tags.elementsAs.isNone
        · cases ce <;> simp_all [deploymentCreate, clientErrDiags]
        · cases ce with
          | some e => simp_all [deploymentCreate, clientErrDiags]
          | none =>
            by_cases hp : paramsUnmarshalOK plan0.parameters ji
            · cases tc with
              | true =>
                simp [deploymentCreate, ht, hp, clientErrDiags,
                  copyDeploymentToModel] at hstate
              | false =>
                cases ss with
                | true => simp [deploymentCreate, ht, hp, clientErrDiags, copyDeploymentToModel] at hstate
                | false =>
                  have hm := hstate
                  simp [deploymentCreate, ht, hp, clientErrDiags, copyDeploymentToModel] at hm
                  subst hm
                  simp [copyDeploymentToModel]
            · simp [deploymentCreate, ht, hp, clientErrDiags, copyDeploymentToModel] at hstate

/-- C10 witness: after a concrete successful `Create` from `sampleModel`,
the state's parameters field still holds the planned JSON text. -/
theorem C10_witness :
    DeploymentResourceModel.parameters
        { id := TFString.val (uuidString sampleDeployment.id), created := some 1,
          updated := some 2, accountID := none, workspaceID := none,
          description := TFString.val "desc",
          enforceParameterSchema := TFBool.val true,
          entrypoint := TFString.val "entry", flowID := some sampleDeployment.flowID,
          manifestPath := TFString.val "mp", name := TFString.val "nm",
          parameters := TFString.val "pj", path := TFString.val "pa",
          paused := TFBool.val true, tags := TFList.val ["t1"],
          version := TFString.val "ver", workPoolName := TFString.val "pool",
          workQueueName := TFString.val "queue" } =
      sampleModel.parameters :=
  (C10_copy_frame.2 0
      ⟨some sampleModel, none, false, Except.ok sampleDeployment, false, false⟩
      sampleModel _ rfl (by decide)).1

end Prefect
